import Mathlib

/-!
Verification of the midnight-knowledge-agent repository.

This file shallowly embeds the document store (`KnowledgeBase.add_document`,
`KnowledgeBase.search` from `kb_agent_system_claude.py` / `kb_agent_system.py`),
the keyword category classifier (`DocumentationWriterAgent._detect_category`
from `web_dashboard.py` and `determine_category` from `research_worker.py`),
the index builder (`KnowledgeBaseMaintainerAgent.create_index`), the task
state machine (`app.py` routes plus `research_worker.process_task`), and the
research/documentation pipeline, and proves the specification claims about
them.

Modelling conventions:
  - the filesystem is a store: an association list from path (String) to file
    content (String); `open(path, "w")` + `write` is an insert-or-overwrite;
  - Python strings are Lean `String`s; most string work happens on `.data`
    (lists of characters);
  - `datetime.now()` values are explicit parameters;
  - metadata dictionaries are association lists of string keys to string
    values (list-valued entries such as `sources` are modelled by a single
    string), and `json.dumps(d, indent=2)` is modelled with escaping of the
    backslash, quote, newline, carriage-return and tab characters;
  - exceptions are `Except String`.
-/

/-- A filesystem store: association list from file path to file content. -/
abbrev Store := List (String × String)

/-- Insert-or-overwrite for association lists.  This is both the semantics of
`open(path, "w")` on the store and of Python `dict.__setitem__` (existing keys
keep their position and value is replaced; new keys are appended). -/
def pySetKey (d : List (String × String)) (k v : String) : List (String × String) :=
  if d.any (fun p => p.1 == k) then
    d.map (fun p => if p.1 == k then (p.1, v) else p)
  else
    d ++ [(k, v)]

/-- Python `dict.update`: apply `pySetKey` for each new key/value pair. -/
def pyUpdate (d : List (String × String)) (kvs : List (String × String)) :
    List (String × String) :=
  kvs.foldl (fun acc p => pySetKey acc p.1 p.2) d

/-- Key lookup in an association list (Python `d[k]` / store read). -/
def listLookup (d : List (String × String)) (k : String) : Option String :=
  (d.find? (fun p => p.1 == k)).map (fun p => p.2)

/-- Remove a key from the store (used for `shutil.move`). -/
def storeRemove (d : Store) (k : String) : Store :=
  d.filter (fun p => p.1 != k)

/-- Python `s.lower()` (character-wise, as for the ASCII data handled here). -/
def pyLower (s : String) : String := String.mk (s.data.map Char.toLower)

/-- One step of Python `str.replace`: bounded by fuel, replaces non-overlapping
occurrences of `needle` (assumed nonempty in all uses) left to right. -/
def pyReplaceFuel : Nat → List Char → List Char → List Char → List Char
  | 0, _, _, hay => hay
  | _ + 1, _, _, [] => []
  | f + 1, needle, repl, c :: t =>
    if needle.isPrefixOf (c :: t) then
      repl ++ pyReplaceFuel f needle repl (List.drop needle.length (c :: t))
    else
      c :: pyReplaceFuel f needle repl t

/-- Python `s.replace(pat, repl)` for a nonempty pattern. -/
def pyReplace (s pat repl : String) : String :=
  String.mk (pyReplaceFuel s.data.length pat.data repl.data s.data)

/-- Substring test on character lists (Python `needle in hay`, for nonempty
needles; the empty needle is also correctly reported as contained). -/
def listContains (needle : List Char) : List Char → Bool
  | [] => needle.isEmpty
  | c :: t => needle.isPrefixOf (c :: t) || listContains needle t

/-- Python `needle in hay` on strings. -/
def pyContains (hay needle : String) : Bool := listContains needle.data hay.data

/-- Fuel-bounded core of Python `hay.count(needle)`: counts non-overlapping
occurrences left to right (correct for nonempty needles with fuel
`hay.length`). -/
def pyCountFuel : Nat → List Char → List Char → Nat
  | 0, _, _ => 0
  | _ + 1, _, [] => 0
  | f + 1, needle, c :: t =>
    if needle.isPrefixOf (c :: t) then
      1 + pyCountFuel f needle (List.drop needle.length (c :: t))
    else
      pyCountFuel f needle t

/-- Python `hay.count(needle)` for nonempty needles. -/
def pyCount (hay needle : String) : Nat :=
  pyCountFuel hay.data.length needle.data hay.data

/-- Python `s.endswith(suffix)`. -/
def pyEndsWith (s suffix : String) : Bool := suffix.data.isSuffixOf s.data

/-- Python `s.startswith(prefixStr)`. -/
def pyStartsWith (s prefixStr : String) : Bool := prefixStr.data.isPrefixOf s.data

/-- The fixed category table of `KnowledgeBase.__init__` (categories with
their descriptions, in insertion order). -/
def categoriesTable : List (String × String) :=
  [ ("midnight", "Midnight blockchain documentation"),
    ("cardano", "Cardano technical specs"),
    ("healthcare", "Healthcare standards and regulations"),
    ("zkproofs", "Zero-knowledge proof research"),
    ("competitors", "Competitive analysis"),
    ("architecture", "System architecture and design"),
    ("smart_contracts", "Smart contract patterns and code"),
    ("research", "Raw research findings") ]

/-- The valid category names (the keys of `self.categories`). -/
def validCategories : List String := categoriesTable.map (fun p => p.1)

/-- JSON string escaping for the characters that matter to the header layout
(backslash, double quote, newline, carriage return, tab), as `json.dumps`
performs on string keys and values. -/
def jsonEsc : List Char → List Char
  | [] => []
  | c :: t =>
    (if c = '\\' then ['\\', '\\']
     else if c = '"' then ['\\', '"']
     else if c = '\n' then ['\\', 'n']
     else if c = '\r' then ['\\', 'r']
     else if c = '\t' then ['\\', 't']
     else [c]) ++ jsonEsc t

/-- One rendered line of a JSON object body: `  "k": "v"`, with a trailing
comma when further entries follow. -/
def jsonEntryLine (kv : String × String) (comma : Bool) : List Char :=
  [' ', ' ', '"'] ++ jsonEsc kv.1.data ++ ['"', ':', ' ', '"'] ++ jsonEsc kv.2.data ++
    ['"'] ++ (if comma then [','] else [])

/-- The entry lines of a JSON object followed by the closing-brace line. -/
def jsonBodyLines : List (String × String) → List (List Char)
  | [] => [['}']]
  | [kv] => [jsonEntryLine kv false, ['}']]
  | kv :: rest => jsonEntryLine kv true :: jsonBodyLines rest

/-- The lines of `json.dumps(d, indent=2)`. -/
def jsonLines (d : List (String × String)) : List (List Char) :=
  match d with
  | [] => [['{', '}']]
  | _ => ['{'] :: jsonBodyLines d

/-- Join lines with newline separators (no trailing newline). -/
def joinNl : List (List Char) → List Char
  | [] => []
  | [l] => l
  | l :: ls => l ++ '\n' :: joinNl ls

/-- `json.dumps(d, indent=2)` as a string. -/
def jsonDumps (d : List (String × String)) : String := String.mk (joinNl (jsonLines d))

/-- The `---` line delimiting the metadata header block. -/
def dashesLine : List Char := ['-', '-', '-']

/-- The character data written by `add_document`:
`"---\n" + json.dumps(doc_metadata, indent=2) + "\n---\n\n" + "# {title}\n\n" + content`. -/
def docFileData (docMeta : List (String × String)) (title content : String) : List Char :=
  dashesLine ++ '\n' :: joinNl (jsonLines docMeta) ++ '\n' :: dashesLine ++
    '\n' :: '\n' :: '#' :: ' ' :: title.data ++ '\n' :: '\n' :: content.data

/-- The full file content written by `add_document`. -/
def docFileContent (docMeta : List (String × String)) (title content : String) : String :=
  String.mk (docFileData docMeta title content)

/-- Result of a call to `KnowledgeBase.add_document`: the store afterwards,
the returned filepath or the raised exception, and the state of the caller's
own metadata dictionary after the call (Python aliasing: `metadata or {}` is
the caller's object when `metadata` is truthy, so `doc_metadata.update`
mutates it). -/
structure AddDocResult where
  store : Store
  result : Except String String
  callerMetadata : List (String × String)

/-- `KnowledgeBase.add_document(category, title, content, metadata)` from
`kb_agent_system_claude.py` lines 133-157 (identically `kb_agent_system.py`
lines 34-61).  `timestamp` is `datetime.now().strftime("%Y%m%d_%H%M%S")` and
`created` is `datetime.now().isoformat()`; `basePath` is `self.base_path`. -/
def addDocument (basePath : String) (store : Store) (category title content : String)
    (metadata : List (String × String)) (timestamp created : String) : AddDocResult :=
  if category ∈ validCategories then
    let filename := timestamp ++ "_" ++ pyReplace title " " "_" ++ ".md"
    let filepath := basePath ++ "/" ++ category ++ "/" ++ filename
    let docMeta := pyUpdate metadata
      [("created", created), ("category", category), ("title", title)]
    let callerAfter := if metadata.isEmpty then metadata else docMeta
    { store := pySetKey store filepath (docFileContent docMeta title content),
      result := Except.ok filepath,
      callerMetadata := callerAfter }
  else
    { store := store,
      result := Except.error ("Invalid category: " ++ category),
      callerMetadata := metadata }

/-- Split off the first line: the characters before the first newline, and the
remainder after it. -/
def takeLine : List Char → List Char × List Char
  | [] => ([], [])
  | c :: t => if c = '\n' then ([], t) else
    let r := takeLine t
    (c :: r.1, r.2)

/-- Skip lines until (and including) the first line equal to `---`; returns
the remainder, or `none` when fuel runs out. -/
def skipToDashes : Nat → List Char → Option (List Char)
  | 0, _ => none
  | f + 1, s =>
    let r := takeLine s
    if r.1 = dashesLine then some r.2 else skipToDashes f r.2

/-- After the metadata block: expect a blank line, read the title-heading
line, expect a blank line, and return the heading line with the remaining
body. -/
def stripTail (r1 : List Char) : Option (String × String) :=
  let r2 := takeLine r1
  if r2.1 = [] then
    let r3 := takeLine r2.2
    let r4 := takeLine r3.2
    if r4.1 = [] then some (String.mk r3.1, String.mk r4.2) else none
  else none

/-- Parse a stored document back apart: expect a first `---` line, skip the
metadata block through its closing `---` line, expect a blank line, read the
title-heading line, expect a blank line, and return the heading line together
with the remaining body, exactly undoing the layout `add_document` writes. -/
def stripHeaderAndTitle (s : String) : Option (String × String) :=
  let r0 := takeLine s.data
  if r0.1 = dashesLine then
    (skipToDashes s.data.length r0.2).bind stripTail
  else none

theorem listLookup_cons_pos (p : String × String) (t : List (String × String))
    (q : String) (h : (p.1 == q) = true) : listLookup (p :: t) q = some p.2 := by
  unfold listLookup
  simp only [List.find?_cons, h]
  rfl

theorem listLookup_cons_neg (p : String × String) (t : List (String × String))
    (q : String) (h : (p.1 == q) = false) : listLookup (p :: t) q = listLookup t q := by
  unfold listLookup
  simp only [List.find?_cons, h]

theorem listLookup_map_replace_other (t : List (String × String)) (k v q : String)
    (hq : q ≠ k) :
    listLookup (t.map (fun p => if p.1 == k then (p.1, v) else p)) q = listLookup t q := by
  induction t with
  | nil => rfl
  | cons p t ih =>
    rw [List.map_cons]
    by_cases hp : (p.1 == k) = true
    · have hpk : p.1 = k := eq_of_beq hp
      have hpq : (p.1 == q) = false := by
        rw [beq_eq_false_iff_ne]
        exact fun h => hq (h ▸ hpk)
      rw [if_pos hp, listLookup_cons_neg (p.1, v) _ q hpq, listLookup_cons_neg p t q hpq, ih]
    · have hpf : (p.1 == k) = false := eq_false_of_ne_true hp
      rw [if_neg (by rw [hpf]; exact Bool.false_ne_true)]
      by_cases hpq : (p.1 == q) = true
      · rw [listLookup_cons_pos _ _ _ hpq, listLookup_cons_pos _ _ _ hpq]
      · have hpqf : (p.1 == q) = false := by simpa using hpq
        rw [listLookup_cons_neg _ _ _ hpqf, listLookup_cons_neg _ _ _ hpqf, ih]

theorem listLookup_map_replace_self (t : List (String × String)) (k v : String)
    (h : t.any (fun p => p.1 == k) = true) :
    listLookup (t.map (fun p => if p.1 == k then (p.1, v) else p)) k = some v := by
  induction t with
  | nil => simp at h
  | cons p t ih =>
    rw [List.map_cons]
    by_cases hp : (p.1 == k) = true
    · rw [if_pos hp, listLookup_cons_pos (p.1, v) _ k hp]
    · have hpf : (p.1 == k) = false := eq_false_of_ne_true hp
      simp only [List.any_cons, hpf, Bool.false_or] at h
      rw [if_neg (by rw [hpf]; exact Bool.false_ne_true), listLookup_cons_neg _ _ _ hpf]
      exact ih h

theorem listLookup_append (d e : List (String × String)) (q : String) :
    listLookup (d ++ e) q =
      match listLookup d q with
      | some v => some v
      | none => listLookup e q := by
  induction d with
  | nil => rfl
  | cons p t ih =>
    rw [List.cons_append]
    by_cases hp : (p.1 == q) = true
    · rw [listLookup_cons_pos _ _ _ hp, listLookup_cons_pos _ _ _ hp]
    · have hpf : (p.1 == q) = false := eq_false_of_ne_true hp
      rw [listLookup_cons_neg _ _ _ hpf, listLookup_cons_neg _ _ _ hpf, ih]

theorem listLookup_not_found (d : List (String × String)) (k : String)
    (h : d.any (fun p => p.1 == k) = false) : listLookup d k = none := by
  induction d with
  | nil => rfl
  | cons p t ih =>
    simp only [List.any_cons, Bool.or_eq_false_iff] at h
    rw [listLookup_cons_neg _ _ _ h.1]
    exact ih h.2

theorem pySetKey_lookup_self (d : List (String × String)) (k v : String) :
    listLookup (pySetKey d k v) k = some v := by
  unfold pySetKey
  by_cases h : d.any (fun p => p.1 == k) = true
  · rw [if_pos h]
    exact listLookup_map_replace_self d k v h
  · have hf : d.any (fun p => p.1 == k) = false := eq_false_of_ne_true h
    rw [if_neg h]
    rw [listLookup_append, listLookup_not_found d k hf]
    exact listLookup_cons_pos (k, v) [] k (by simp)

theorem pySetKey_lookup_other (d : List (String × String)) (k v q : String)
    (hq : q ≠ k) : listLookup (pySetKey d k v) q = listLookup d q := by
  unfold pySetKey
  by_cases h : d.any (fun p => p.1 == k) = true
  · rw [if_pos h]
    exact listLookup_map_replace_other d k v q hq
  · have hf : d.any (fun p => p.1 == k) = false := eq_false_of_ne_true h
    rw [if_neg h]
    rw [listLookup_append]
    have hkq : (k == q) = false := by
      rw [beq_eq_false_iff_ne]
      exact fun h => hq h.symm
    cases hl : listLookup d q with
    | some v => rfl
    | none => rw [listLookup_cons_neg _ _ _ hkq]; rfl

/-- Lines of the metadata block followed by the closing `---` line, a newline,
and an arbitrary tail: the exact stream shape `skipToDashes` consumes. -/
def joinNlTail : List (List Char) → List Char → List Char
  | [], tail => dashesLine ++ '\n' :: tail
  | l :: ls, tail => l ++ '\n' :: joinNlTail ls tail

theorem takeLine_append (a b : List Char) (h : '\n' ∉ a) :
    takeLine (a ++ '\n' :: b) = (a, b) := by
  induction a with
  | nil => simp [takeLine]
  | cons c t ih =>
    have hc : ¬(c = '\n') := fun hcc => h (hcc ▸ List.mem_cons_self c t)
    have ht : '\n' ∉ t := fun hm => h (List.mem_cons_of_mem c hm)
    simp [takeLine, hc, ih ht]

theorem takeLine_newline (b : List Char) : takeLine ('\n' :: b) = ([], b) := by
  simp [takeLine]

theorem skipToDashes_spec (jl : List (List Char)) :
    ∀ (fuel : Nat) (tail : List Char),
      (∀ l ∈ jl, '\n' ∉ l ∧ l ≠ dashesLine) → jl.length < fuel →
      skipToDashes fuel (joinNlTail jl tail) = some tail := by
  induction jl with
  | nil =>
    intro fuel tail _ hfuel
    match fuel, hfuel with
    | f + 1, _ =>
      show skipToDashes (f + 1) (dashesLine ++ '\n' :: tail) = some tail
      unfold skipToDashes
      rw [takeLine_append dashesLine tail (by decide)]
      simp
  | cons l ls ih =>
    intro fuel tail hok hfuel
    match fuel, hfuel with
    | f + 1, hfuel =>
      show skipToDashes (f + 1) (l ++ '\n' :: joinNlTail ls tail) = some tail
      unfold skipToDashes
      rw [takeLine_append l _ (hok l (List.mem_cons_self l ls)).1]
      rw [if_neg (hok l (List.mem_cons_self l ls)).2]
      exact ih f tail (fun x hx => hok x (List.mem_cons_of_mem l hx))
        (Nat.lt_of_succ_lt_succ hfuel)

theorem jsonEsc_no_nl (l : List Char) : '\n' ∉ jsonEsc l := by
  induction l with
  | nil => simp [jsonEsc]
  | cons c t ih =>
    unfold jsonEsc
    intro hmem
    rcases List.mem_append.mp hmem with hm | hm
    · by_cases h1 : c = '\\'
      · simp [h1] at hm
      · by_cases h2 : c = '"'
        · simp [h1, h2] at hm
        · by_cases h3 : c = '\n'
          · simp [h1, h2, h3] at hm
          · by_cases h4 : c = '\r'
            · simp [h1, h2, h3, h4] at hm
            · by_cases h5 : c = '\t'
              · simp [h1, h2, h3, h4, h5] at hm
              · simp [h1, h2, h3, h4, h5] at hm
                exact h3 hm.symm
    · exact ih hm

theorem jsonEntryLine_no_nl (kv : String × String) (b : Bool) :
    '\n' ∉ jsonEntryLine kv b := by
  unfold jsonEntryLine
  intro hmem
  rcases List.mem_append.mp hmem with h | h
  · rcases List.mem_append.mp h with h | h
    · rcases List.mem_append.mp h with h | h
      · rcases List.mem_append.mp h with h | h
        · rcases List.mem_append.mp h with h | h
          · revert h; decide
          · exact jsonEsc_no_nl kv.1.data h
        · revert h; decide
      · exact jsonEsc_no_nl kv.2.data h
    · revert h; decide
  · cases b with
    | true => revert h; decide
    | false => revert h; decide

theorem jsonEntryLine_ne_dashes (kv : String × String) (b : Bool) :
    jsonEntryLine kv b ≠ dashesLine := by
  unfold jsonEntryLine dashesLine
  intro h
  have : (' ' : Char) = '-' := by
    have h0 := congrArg (fun l => l.head?) h
    simp only [List.cons_append, List.head?_cons, Option.some.injEq] at h0
    exact h0
  exact absurd this (by decide)

theorem jsonBodyLines_ok (md : List (String × String)) :
    ∀ l ∈ jsonBodyLines md, '\n' ∉ l ∧ l ≠ dashesLine := by
  induction md with
  | nil =>
    intro l hl
    simp [jsonBodyLines] at hl
    subst hl
    exact ⟨by decide, by decide⟩
  | cons kv rest ih =>
    intro l hl
    cases rest with
    | nil =>
      simp [jsonBodyLines] at hl
      rcases hl with hl | hl
      · subst hl
        exact ⟨jsonEntryLine_no_nl kv false, jsonEntryLine_ne_dashes kv false⟩
      · subst hl
        exact ⟨by decide, by decide⟩
    | cons kv2 rest2 =>
      rw [show jsonBodyLines (kv :: kv2 :: rest2) =
            jsonEntryLine kv true :: jsonBodyLines (kv2 :: rest2) from rfl] at hl
      rcases List.mem_cons.mp hl with hl | hl
      · subst hl
        exact ⟨jsonEntryLine_no_nl kv true, jsonEntryLine_ne_dashes kv true⟩
      · exact ih l hl

theorem jsonLines_ok (md : List (String × String)) :
    ∀ l ∈ jsonLines md, '\n' ∉ l ∧ l ≠ dashesLine := by
  intro l hl
  cases md with
  | nil =>
    simp [jsonLines] at hl
    subst hl
    exact ⟨by decide, by decide⟩
  | cons kv rest =>
    rw [show jsonLines (kv :: rest) = ['{'] :: jsonBodyLines (kv :: rest) from rfl] at hl
    rcases List.mem_cons.mp hl with hl | hl
    · subst hl
      exact ⟨by decide, by decide⟩
    · exact jsonBodyLines_ok (kv :: rest) l hl

theorem joinNl_bridge (jl : List (List Char)) (tail : List Char) (h : jl ≠ []) :
    joinNl jl ++ '\n' :: (dashesLine ++ '\n' :: tail) = joinNlTail jl tail := by
  induction jl with
  | nil => exact absurd rfl h
  | cons l ls ih =>
    cases ls with
    | nil => simp [joinNl, joinNlTail]
    | cons l2 ls2 =>
      rw [show joinNl (l :: l2 :: ls2) = l ++ '\n' :: joinNl (l2 :: ls2) from rfl]
      rw [show joinNlTail (l :: l2 :: ls2) tail = l ++ '\n' :: joinNlTail (l2 :: ls2) tail from rfl]
      rw [List.append_assoc, List.cons_append]
      rw [ih (by simp)]

theorem joinNlTail_length (jl : List (List Char)) (tail : List Char) :
    jl.length ≤ (joinNlTail jl tail).length := by
  induction jl with
  | nil => simp [joinNlTail]
  | cons l ls ih =>
    show ls.length + 1 ≤ (l ++ '\n' :: joinNlTail ls tail).length
    rw [List.length_append, List.length_cons]
    omega

theorem docFileData_eq (md : List (String × String)) (title content : String) :
    docFileData md title content =
      dashesLine ++ '\n' ::
        joinNlTail (jsonLines md)
          ('\n' :: '#' :: ' ' :: (title.data ++ '\n' :: '\n' :: content.data)) := by
  unfold docFileData
  rw [← joinNl_bridge (jsonLines md) _ (by cases md <;> simp [jsonLines])]
  simp [List.append_assoc]

theorem strMk_data (s : String) : String.mk s.data = s := rfl

theorem strAppend_data (a b : String) : (a ++ b).data = a.data ++ b.data := by
  cases a
  cases b
  rfl

theorem strip_docFileContent (md : List (String × String)) (title content : String)
    (h : '\n' ∉ title.data) :
    stripHeaderAndTitle (docFileContent md title content) =
      some ("# " ++ title, content) := by
  have hdata : (docFileContent md title content).data = docFileData md title content := rfl
  unfold stripHeaderAndTitle
  rw [hdata, docFileData_eq]
  rw [takeLine_append dashesLine _ (by decide)]
  simp only [if_pos rfl]
  have hlen : (jsonLines md).length <
      (dashesLine ++ '\n' ::
        joinNlTail (jsonLines md)
          ('\n' :: '#' :: ' ' :: (title.data ++ '\n' :: '\n' :: content.data))).length := by
    have h1 := joinNlTail_length (jsonLines md)
      ('\n' :: '#' :: ' ' :: (title.data ++ '\n' :: '\n' :: content.data))
    rw [List.length_append, List.length_cons]
    have : dashesLine.length = 3 := by decide
    omega
  rw [skipToDashes_spec (jsonLines md) _ _ (jsonLines_ok md) hlen, Option.some_bind]
  unfold stripTail
  rw [takeLine_newline]
  simp only [if_pos rfl]
  rw [show '#' :: ' ' :: (title.data ++ '\n' :: '\n' :: content.data) =
        ('#' :: ' ' :: title.data) ++ '\n' :: ('\n' :: content.data) by simp]
  rw [takeLine_append ('#' :: ' ' :: title.data) _ (by
    intro hmem
    rcases List.mem_cons.mp hmem with hc | hc
    · exact absurd hc.symm (by decide)
    · rcases List.mem_cons.mp hc with hc | hc
      · exact absurd hc.symm (by decide)
      · exact h hc)]
  rw [takeLine_newline]
  simp only [if_pos rfl]
  have htitle : String.mk ('#' :: ' ' :: title.data) = "# " ++ title := by
    have h2 : ("# " ++ title).data = '#' :: ' ' :: title.data := by
      rw [strAppend_data]
      rfl
    rw [← h2]
  rw [htitle, strMk_data]
  simp

/-- C1: for every valid category and every (newline-free) title,
`add_document` returns the location `{base}/{category}/{timestamp}_{title
with spaces replaced by underscores}.md`, changes the store at exactly that
one path, and the file written there parses back as a `---`-delimited
metadata header block followed by the heading `# {title}` and then exactly
the original body. -/
theorem addDocument_valid_spec (basePath : String) (store : Store)
    (category title content : String) (metadata : List (String × String))
    (ts created : String) (hcat : category ∈ validCategories)
    (htitle : '\n' ∉ title.data) :
    (addDocument basePath store category title content metadata ts created).result =
        Except.ok (basePath ++ "/" ++ category ++ "/" ++
          (ts ++ "_" ++ pyReplace title " " "_" ++ ".md")) ∧
    (∀ q, q ≠ basePath ++ "/" ++ category ++ "/" ++
          (ts ++ "_" ++ pyReplace title " " "_" ++ ".md") →
        listLookup (addDocument basePath store category title content metadata ts created).store q =
          listLookup store q) ∧
    ∃ fc,
      listLookup (addDocument basePath store category title content metadata ts created).store
          (basePath ++ "/" ++ category ++ "/" ++
            (ts ++ "_" ++ pyReplace title " " "_" ++ ".md")) = some fc ∧
      stripHeaderAndTitle fc = some ("# " ++ title, content) := by
  unfold addDocument
  rw [if_pos hcat]
  refine ⟨rfl, fun q hq => pySetKey_lookup_other store _ _ q hq,
    ⟨docFileContent
        (pyUpdate metadata [("created", created), ("category", category), ("title", title)])
        title content,
      pySetKey_lookup_self store _ _,
      strip_docFileContent _ title content htitle⟩⟩

/-- Witness for C1 at a concrete input. -/
theorem addDocument_valid_spec_witness :
    (addDocument "knowledge_base" [] "midnight" "My Note" "Body text."
        [("agent", "Tester")] "20250101_000000" "2025-01-01T00:00:00").result =
      Except.ok "knowledge_base/midnight/20250101_000000_My_Note.md" := by
  have h := addDocument_valid_spec "knowledge_base" [] "midnight" "My Note" "Body text."
    [("agent", "Tester")] "20250101_000000" "2025-01-01T00:00:00" (by decide) (by decide)
  rw [h.1]
  rfl

/-- C2: for every category outside the fixed eight-element set,
`add_document` raises `Invalid category: ...` and leaves the store and the
caller metadata untouched. -/
theorem addDocument_invalid_spec (basePath : String) (store : Store)
    (category title content : String) (metadata : List (String × String))
    (ts created : String) (h : category ∉ validCategories) :
    addDocument basePath store category title content metadata ts created =
      { store := store,
        result := Except.error ("Invalid category: " ++ category),
        callerMetadata := metadata } := by
  unfold addDocument
  rw [if_neg h]

/-- Witness for C2 at a concrete input. -/
theorem addDocument_invalid_spec_witness :
    addDocument "knowledge_base" [("knowledge_base/midnight/x.md", "doc")] "blog" "T" "B"
        [("k", "v")] "20250101_000000" "2025-01-01T00:00:00" =
      { store := [("knowledge_base/midnight/x.md", "doc")],
        result := Except.error ("Invalid category: " ++ "blog"),
        callerMetadata := [("k", "v")] } :=
  addDocument_invalid_spec "knowledge_base" [("knowledge_base/midnight/x.md", "doc")]
    "blog" "T" "B" [("k", "v")] "20250101_000000" "2025-01-01T00:00:00" (by decide)

/-- The keyword table of `DocumentationWriterAgent._detect_category`
(`web_dashboard.py` lines 525-565), in dict insertion order. -/
def categoryPatterns : List (String × List String) :=
  [ ("cardano",
      ["cardano", "ada", "plutus", "stake pool", "catalyst",
       "daedalus", "yoroi", "shelley", "voltaire", "goguen",
       "docs.cardano.org", "cardano.org"]),
    ("midnight",
      ["midnight", "midnight network", "dust", "compact",
       "midnight.network", "privacy blockchain"]),
    ("healthcare",
      ["healthcare", "health", "medical", "patient", "hipaa",
       "fhir", "hl7", "ehr", "emr", "clinical", "hospital",
       "doctor", "pharma", "drug", "diagnosis"]),
    ("zkproofs",
      ["zero knowledge", "zk-proof", "zkp", "zk-snark",
       "zk-stark", "zero-knowledge", "proof system",
       "cryptographic proof", "privacy proof"]),
    ("smart_contracts",
      ["smart contract", "solidity", "vyper", "contract",
       "dapp", "decentralized app", "on-chain"]),
    ("architecture",
      ["architecture", "design pattern", "system design",
       "infrastructure", "scalability", "distributed system",
       "consensus", "protocol"]),
    ("competitors",
      ["ethereum", "polkadot", "cosmos", "avalanche",
       "solana", "algorand", "near", "comparison", "vs"]) ]

/-- The generic blockchain keyword set used by the zero-weight fallback. -/
def blockchainWords : List String := ["blockchain", "crypto", "token", "wallet"]

/-- The weight loop of `_detect_category`: for each keyword, when it occurs
in the combined text, add `combined_text.count(keyword)`. -/
def codeWeight (text : String) (kws : List String) : Nat :=
  kws.foldl (fun w k => if pyContains text k then w + pyCount text k else w) 0

/-- Weight as the specification words it: the sum over the keywords of the
occurrence counts. -/
def specWeight (text : String) (kws : List String) : Nat :=
  (kws.map (fun k => pyCount text k)).sum

/-- The combined text of `_detect_category`:
`f"{topic} {context} {source_url}".lower()`. -/
def combinedText (topic context url : String) : String :=
  pyLower (topic ++ " " ++ context ++ " " ++ url)

/-- The weighted category table the code computes for a combined text. -/
def weightedTable (text : String) : List (String × Nat) :=
  categoryPatterns.map (fun p => (p.1, codeWeight text p.2))

/-- The `max_weight`/`best_category` selection loop of `_detect_category`
(initial best `research`, weight 0, strict improvement only). -/
def bestOf (ws : List (String × Nat)) : String × Nat :=
  ws.foldl (fun acc p => if p.2 > acc.2 then p else acc) ("research", 0)

/-- `DocumentationWriterAgent._detect_category(topic, context, source_url)`
(`web_dashboard.py` lines 517-589): lower-case the space-joined text, weigh
every category, take the first category of strictly greatest weight
(default `research`), and on an all-zero result fall back to `midnight`
exactly when a generic blockchain word occurs. -/
def detectCategory (topic context url : String) : String :=
  if (bestOf (weightedTable (combinedText topic context url))).2 == 0 then
    (if blockchainWords.any (fun w => pyContains (combinedText topic context url) w)
      then "midnight"
      else (bestOf (weightedTable (combinedText topic context url))).1)
  else (bestOf (weightedTable (combinedText topic context url))).1

/-- Greatest weight occurring in a weighted category list (0 when empty). -/
def maxW (l : List (String × Nat)) : Nat := l.foldr (fun p m => max p.2 m) 0

/-- The weighted table as the specification words it (sum of counts). -/
def specWeightedTable (text : String) : List (String × Nat) :=
  categoryPatterns.map (fun p => (p.1, specWeight text p.2))

/-- Category selection as the specification words it: the first category
whose weight equals the strictly positive maximum, with the two-tier
`midnight`/`research` fallback when every weight is zero. -/
def specSelect (ws : List (String × Nat)) (text : String) : String :=
  if maxW ws = 0 then
    (if blockchainWords.any (fun w => pyContains text w) then "midnight" else "research")
  else ((ws.find? (fun p => p.2 == maxW ws)).map Prod.fst).getD "research"

/-- The classifier as claim C4 words it, with the amended (space-joined)
combined text. -/
def specDetectJoined (topic context url : String) : String :=
  specSelect (specWeightedTable (combinedText topic context url))
    (combinedText topic context url)

/-- The classifier exactly as claim C4 states it: weights are computed over
the plain concatenation `topic + context + source_url`. -/
def specDetectPlain (topic context url : String) : String :=
  specSelect (specWeightedTable (pyLower (topic ++ context ++ url)))
    (pyLower (topic ++ context ++ url))

theorem pyCountFuel_of_not_contains (needle : List Char) :
    ∀ (fuel : Nat) (hay : List Char), listContains needle hay = false →
      pyCountFuel fuel needle hay = 0 := by
  intro fuel
  induction fuel with
  | zero => intro hay _; rfl
  | succ f ih =>
    intro hay hc
    cases hay with
    | nil => rfl
    | cons c t =>
      unfold listContains at hc
      rw [Bool.or_eq_false_iff] at hc
      unfold pyCountFuel
      rw [if_neg (by rw [hc.1]; exact Bool.false_ne_true)]
      exact ih t hc.2

theorem pyCount_of_not_contains (text k : String) (h : pyContains text k = false) :
    pyCount text k = 0 :=
  pyCountFuel_of_not_contains k.data text.data.length text.data h

theorem codeWeight_foldl_general (text : String) :
    ∀ (kws : List String) (w : Nat),
      kws.foldl (fun w k => if pyContains text k then w + pyCount text k else w) w =
        w + specWeight text kws := by
  intro kws
  induction kws with
  | nil => intro w; simp [specWeight]
  | cons k ks ih =>
    intro w
    rw [List.foldl_cons]
    have hstep : (if pyContains text k then w + pyCount text k else w) =
        w + pyCount text k := by
      by_cases h : pyContains text k = true
      · rw [if_pos h]
      · have hf : pyContains text k = false := eq_false_of_ne_true h
        rw [if_neg h, pyCount_of_not_contains text k hf]
        omega
    rw [hstep, ih]
    simp [specWeight]
    omega

theorem codeWeight_eq_specWeight (text : String) (kws : List String) :
    codeWeight text kws = specWeight text kws := by
  unfold codeWeight
  rw [codeWeight_foldl_general text kws 0]
  omega

theorem maxW_cons (p : String × Nat) (l : List (String × Nat)) :
    maxW (p :: l) = max p.2 (maxW l) := rfl

theorem find?_maxW_eq (l : List (String × Nat)) (h : 0 < maxW l) :
    ∃ q, l.find? (fun p => p.2 == maxW l) = some q := by
  induction l with
  | nil => exact absurd h (by simp [maxW])
  | cons p l ih =>
    rw [maxW_cons] at h ⊢
    by_cases hp : (p.2 == max p.2 (maxW l)) = true
    · exact ⟨p, List.find?_cons_of_pos _ hp⟩
    · have hpne : p.2 ≠ max p.2 (maxW l) := fun he => hp (beq_iff_eq.mpr he)
      have hmax : max p.2 (maxW l) = maxW l := by
        rcases max_choice p.2 (maxW l) with hc | hc
        · exact absurd hc.symm hpne
        · exact hc
      rw [hmax] at h hp ⊢
      obtain ⟨q, hq⟩ := ih h
      exact ⟨q, by rw [List.find?_cons_of_neg _ (by exact hp)]; exact hq⟩

theorem foldl_best_spec :
    ∀ (l : List (String × Nat)) (b : String) (m : Nat),
      l.foldl (fun acc p => if p.2 > acc.2 then p else acc) (b, m) =
        if maxW l > m then
          (((l.find? (fun p => p.2 == maxW l)).map Prod.fst).getD b, maxW l)
        else (b, m) := by
  intro l
  induction l with
  | nil =>
    intro b m
    rw [List.foldl_nil, if_neg]
    exact Nat.not_lt_zero m
  | cons p l ih =>
    intro b m
    rw [List.foldl_cons, maxW_cons]
    by_cases hw : p.2 > m
    · rw [if_pos hw, ih p.1 p.2]
      have hcond : max p.2 (maxW l) > m := lt_of_lt_of_le hw (le_max_left _ _)
      rw [if_pos hcond]
      by_cases hl : maxW l > p.2
      · have hmax : max p.2 (maxW l) = maxW l := max_eq_right (le_of_lt hl)
        have hne : (p.2 == maxW l) = false :=
          beq_eq_false_iff_ne.mpr (Nat.ne_of_lt hl)
        rw [if_pos hl, hmax, List.find?_cons_of_neg _ (by rw [hne]; exact Bool.false_ne_true)]
        obtain ⟨q, hq⟩ := find?_maxW_eq l (Nat.lt_of_le_of_lt (Nat.zero_le _) hl)
        rw [hq]
        rfl
      · have hle : maxW l ≤ p.2 := Nat.le_of_not_lt hl
        have hmax : max p.2 (maxW l) = p.2 := max_eq_left hle
        rw [if_neg hl, hmax, List.find?_cons_of_pos _ (by simp)]
        rfl
    · rw [if_neg hw, ih b m]
      have hwle : p.2 ≤ m := Nat.le_of_not_lt hw
      by_cases hl : maxW l > m
      · have hcond : max p.2 (maxW l) > m := lt_of_lt_of_le hl (le_max_right _ _)
        have hmax : max p.2 (maxW l) = maxW l :=
          max_eq_right (le_of_lt (lt_of_le_of_lt hwle hl))
        have hne : (p.2 == maxW l) = false :=
          beq_eq_false_iff_ne.mpr (Nat.ne_of_lt (lt_of_le_of_lt hwle hl))
        rw [if_pos hl, if_pos hcond, hmax,
          List.find?_cons_of_neg _ (by rw [hne]; exact Bool.false_ne_true)]
      · have hcond : ¬(max p.2 (maxW l) > m) := by
          intro hc
          rcases lt_max_iff.mp hc with hcc | hcc
          · exact hw hcc
          · exact hl hcc
        rw [if_neg hl, if_neg hcond]

theorem maxW_eq_zero (l : List (String × Nat)) (h : ∀ p ∈ l, p.2 = 0) :
    maxW l = 0 := by
  induction l with
  | nil => rfl
  | cons p l ih =>
    rw [maxW_cons, h p (List.mem_cons_self p l),
      ih (fun q hq => h q (List.mem_cons_of_mem p hq))]
    simp

theorem weightedTable_eq (text : String) : weightedTable text = specWeightedTable text := by
  unfold weightedTable specWeightedTable
  simp only [codeWeight_eq_specWeight]

/-- C4 (amended): the classifier weighs every category by summing the
non-overlapping case-insensitive occurrence counts of its keywords in the
lower-cased space-joined text `topic + " " + context + " " + source_url`,
returns the first category (in table iteration order) of strictly greatest
weight, and on an all-zero result applies the two-tier fallback. -/
theorem detectCategory_amended_spec (topic context url : String) :
    detectCategory topic context url = specDetectJoined topic context url := by
  unfold detectCategory specDetectJoined specSelect bestOf
  rw [weightedTable_eq, foldl_best_spec]
  by_cases h : maxW (specWeightedTable (combinedText topic context url)) = 0
  · have hnot : ¬ 0 < maxW (specWeightedTable (combinedText topic context url)) := by omega
    rw [if_neg hnot, if_pos h]
    simp
  · have hpos : 0 < maxW (specWeightedTable (combinedText topic context url)) :=
      Nat.pos_of_ne_zero h
    rw [if_pos hpos, if_neg h]
    have hbeq : (maxW (specWeightedTable (combinedText topic context url)) == 0) = false :=
      beq_eq_false_iff_ne.mpr h
    simp [hbeq]

/-- C4 counterexample: over the plain concatenation `"card" + "ano" + ""` the
keyword `cardano` occurs, so the claimed classifier returns `cardano`; the
code joins the fields with spaces, finds no keyword, and returns `research`. -/
theorem detectCategory_concat_counterexample :
    specDetectPlain "card" "ano" "" ≠ detectCategory "card" "ano" "" ∧
    specDetectPlain "card" "ano" "" = "cardano" ∧
    detectCategory "card" "ano" "" = "research" := by decide

/-- C3: whenever every category weight over the combined text is zero, the
classifier returns `midnight` exactly when the combined text contains one of
the generic blockchain words and `research` otherwise; in particular on the
all-empty input it returns the catch-all `research` (and, being a total
function, never raises). -/
theorem detectCategory_fallback_spec (topic context url : String)
    (h : ∀ p ∈ categoryPatterns, codeWeight (combinedText topic context url) p.2 = 0) :
    (detectCategory topic context url =
      if blockchainWords.any (fun w => pyContains (combinedText topic context url) w)
        then "midnight" else "research") ∧
    detectCategory "" "" "" = "research" := by
  constructor
  · have hz : maxW (weightedTable (combinedText topic context url)) = 0 := by
      apply maxW_eq_zero
      intro q hq
      rcases List.mem_map.mp hq with ⟨p, hp, hpq⟩
      rw [← hpq]
      exact h p hp
    unfold detectCategory bestOf
    rw [foldl_best_spec]
    have hnot : ¬ 0 < maxW (weightedTable (combinedText topic context url)) := by omega
    rw [if_neg hnot]
    simp
  · decide

/-- Witness for C3 at the all-empty input. -/
theorem detectCategory_fallback_spec_witness :
    detectCategory "" "" "" =
      if blockchainWords.any (fun w => pyContains (combinedText "" "" "") w)
        then "midnight" else "research" :=
  (detectCategory_fallback_spec "" "" "" (by decide)).1

/-- The task table: association list from task id to status, in creation
order (the SQLite `tasks` table of `app.py` / the `tasks` dict of
`web_dashboard.py`, restricted to the status column). -/
abbrev TaskSys := List (Nat × String)

/-- Status of a task (`SELECT status FROM tasks WHERE id = ?`). -/
def taskStatus (sys : TaskSys) (i : Nat) : Option String :=
  (sys.find? (fun p => p.1 == i)).map (fun p => p.2)

/-- `UPDATE tasks SET status = ? WHERE id = ?`: unconditional, a no-op when
the id is absent. -/
def setTaskStatus (sys : TaskSys) (i : Nat) (st : String) : TaskSys :=
  sys.map (fun p => if p.1 == i then (p.1, st) else p)

/-- The operations that touch a task's status:
  - `create`: task creation (`INSERT ... status 'pending'`, `app.py` 310-338);
  - `approve`: the approve endpoint (`app.py` 340-350 / `web_dashboard.py`
    437-452) — an unconditional status update;
  - `deny`: the deny endpoint (`app.py` 352-366 / `web_dashboard.py`
    454-469) — likewise unconditional;
  - `beginWork`: the worker setting a queued/selected task to `processing`
    (`research_worker.py` 86-88, `web_dashboard.py` 52-53) — the `UPDATE`
    (resp. the attribute assignment) carries no check of the current status,
    so it fires even when the status changed after the poll/enqueue;
  - `finishWork`: the end of `process_task` setting `completed` or `error`
    (`research_worker.py` 110-114 and 129-134) — again an unconditional
    `UPDATE ... WHERE id = ?`. -/
inductive TaskOp where
  | create (i : Nat)
  | approve (i : Nat)
  | deny (i : Nat)
  | beginWork (i : Nat)
  | finishWork (i : Nat) (ok : Bool)

/-- Effect of one operation on the task table: every operation other than
`create` writes its fixed target status unconditionally, as the source
statements do. -/
def applyOp : TaskOp → TaskSys → TaskSys
  | TaskOp.create i, sys => sys ++ [(i, "pending")]
  | TaskOp.approve i, sys => setTaskStatus sys i "approved"
  | TaskOp.deny i, sys => setTaskStatus sys i "denied"
  | TaskOp.beginWork i, sys => setTaskStatus sys i "processing"
  | TaskOp.finishWork i ok, sys =>
    setTaskStatus sys i (if ok then "completed" else "error")

/-- The status an operation writes to its target task (`none` for `create`,
which never rewrites an existing row). -/
def opTargetStatus : TaskOp → Option String
  | TaskOp.create _ => none
  | TaskOp.approve _ => some "approved"
  | TaskOp.deny _ => some "denied"
  | TaskOp.beginWork _ => some "processing"
  | TaskOp.finishWork _ ok => some (if ok then "completed" else "error")

theorem taskStatus_set_self (sys : TaskSys) (i : Nat) (st s : String)
    (h : taskStatus sys i = some s) :
    taskStatus (setTaskStatus sys i st) i = some st := by
  induction sys with
  | nil => simp [taskStatus] at h
  | cons p t ih =>
    rw [show setTaskStatus (p :: t) i st =
          (if p.1 == i then (p.1, st) else p) :: setTaskStatus t i st from rfl]
    by_cases hp : (p.1 == i) = true
    · rw [if_pos hp]
      unfold taskStatus
      rw [List.find?_cons_of_pos _ (by exact hp)]
      rfl
    · have hpf : (p.1 == i) = false := eq_false_of_ne_true hp
      rw [if_neg hp]
      unfold taskStatus at h ⊢
      rw [List.find?_cons_of_neg _ (by exact hp)] at h
      rw [List.find?_cons_of_neg _ (by exact hp)]
      exact ih h

theorem taskStatus_set_other (sys : TaskSys) (i j : Nat) (st : String)
    (hne : i ≠ j) : taskStatus (setTaskStatus sys j st) i = taskStatus sys i := by
  induction sys with
  | nil => rfl
  | cons p t ih =>
    rw [show setTaskStatus (p :: t) j st =
          (if p.1 == j then (p.1, st) else p) :: setTaskStatus t j st from rfl]
    by_cases hp : (p.1 == i) = true
    · have hpj : (p.1 == j) = false := by
        rw [beq_eq_false_iff_ne]
        intro hj
        exact hne ((eq_of_beq hp) ▸ hj)
      rw [if_neg (by rw [hpj]; exact Bool.false_ne_true)]
      unfold taskStatus
      rw [List.find?_cons_of_pos _ (by exact hp), List.find?_cons_of_pos _ (by exact hp)]
    · have hpf : (p.1 == i) = false := eq_false_of_ne_true hp
      by_cases hpj : (p.1 == j) = true
      · rw [if_pos hpj]
        unfold taskStatus
        rw [List.find?_cons_of_neg _ (by exact hp)]
        rw [List.find?_cons_of_neg _ (by rw [show ((p.1, st) : Nat × String).1 = p.1 from rfl]; exact hp)]
        exact ih
      · rw [if_neg hpj]
        unfold taskStatus
        rw [List.find?_cons_of_neg _ (by exact hp), List.find?_cons_of_neg _ (by exact hp)]
        exact ih

theorem taskStatus_append_left (sys e : TaskSys) (i : Nat) (s : String)
    (h : taskStatus sys i = some s) : taskStatus (sys ++ e) i = some s := by
  induction sys with
  | nil => simp [taskStatus] at h
  | cons p t ih =>
    rw [List.cons_append]
    by_cases hp : (p.1 == i) = true
    · unfold taskStatus at h ⊢
      rw [List.find?_cons_of_pos _ (by exact hp)] at h
      rw [List.find?_cons_of_pos _ (by exact hp)]
      exact h
    · unfold taskStatus at h ⊢
      rw [List.find?_cons_of_neg _ (by exact hp)] at h
      rw [List.find?_cons_of_neg _ (by exact hp)]
      exact ih h

/-- C5 counterexample: create task 1, approve it (which also enqueues it),
then deny it before the worker picks it up; the worker still sets it to
`processing` and then `completed`, because neither update checks the current
status — so `denied` is not terminal and `denied to processing to completed`
is reachable, which the claim excludes. -/
theorem taskTerminal_counterexample :
    taskStatus (applyOp (TaskOp.deny 1)
      (applyOp (TaskOp.approve 1) (applyOp (TaskOp.create 1) []))) 1 = some "denied" ∧
    taskStatus (applyOp (TaskOp.beginWork 1) (applyOp (TaskOp.deny 1)
      (applyOp (TaskOp.approve 1) (applyOp (TaskOp.create 1) [])))) 1 =
      some "processing" ∧
    taskStatus (applyOp (TaskOp.finishWork 1 true) (applyOp (TaskOp.beginWork 1)
      (applyOp (TaskOp.deny 1)
        (applyOp (TaskOp.approve 1) (applyOp (TaskOp.create 1) []))))) 1 =
      some "completed" := by decide

/-- C5 (amended): whenever an operation changes a task's status, the new
status is exactly the operation's fixed target status — `approved` for the
approve endpoint, `denied` for the deny endpoint, `processing` for the
worker pick-up, `completed`/`error` for the worker completion — with no
regard to the previous status (`create` never changes an existing task).
In particular no status, `completed`, `error` and `denied` included, is
terminal. -/
theorem taskOp_transitions_amended (op : TaskOp) (sys : TaskSys) (i : Nat)
    (s s2 : String) (h1 : taskStatus sys i = some s)
    (h2 : taskStatus (applyOp op sys) i = some s2) (hne : s ≠ s2) :
    opTargetStatus op = some s2 := by
  cases op with
  | create j =>
    rw [show applyOp (TaskOp.create j) sys = sys ++ [(j, "pending")] from rfl] at h2
    rw [taskStatus_append_left sys _ i s h1] at h2
    exact absurd (Option.some.inj h2) hne
  | approve j =>
    rw [show applyOp (TaskOp.approve j) sys = setTaskStatus sys j "approved" from rfl] at h2
    by_cases hij : i = j
    · subst hij
      rw [taskStatus_set_self sys i "approved" s h1] at h2
      rw [show opTargetStatus (TaskOp.approve i) = some "approved" from rfl, h2]
    · rw [taskStatus_set_other sys i j _ hij, h1] at h2
      exact absurd (Option.some.inj h2) hne
  | deny j =>
    rw [show applyOp (TaskOp.deny j) sys = setTaskStatus sys j "denied" from rfl] at h2
    by_cases hij : i = j
    · subst hij
      rw [taskStatus_set_self sys i "denied" s h1] at h2
      rw [show opTargetStatus (TaskOp.deny i) = some "denied" from rfl, h2]
    · rw [taskStatus_set_other sys i j _ hij, h1] at h2
      exact absurd (Option.some.inj h2) hne
  | beginWork j =>
    rw [show applyOp (TaskOp.beginWork j) sys =
          setTaskStatus sys j "processing" from rfl] at h2
    by_cases hij : i = j
    · subst hij
      rw [taskStatus_set_self sys i "processing" s h1] at h2
      rw [show opTargetStatus (TaskOp.beginWork i) = some "processing" from rfl, h2]
    · rw [taskStatus_set_other sys i j _ hij, h1] at h2
      exact absurd (Option.some.inj h2) hne
  | finishWork j ok =>
    rw [show applyOp (TaskOp.finishWork j ok) sys =
          setTaskStatus sys j (if ok then "completed" else "error") from rfl] at h2
    by_cases hij : i = j
    · subst hij
      rw [taskStatus_set_self sys i (if ok then "completed" else "error") s h1] at h2
      rw [show opTargetStatus (TaskOp.finishWork i ok) =
            some (if ok then "completed" else "error") from rfl, h2]
    · rw [taskStatus_set_other sys i j _ hij, h1] at h2
      exact absurd (Option.some.inj h2) hne

/-- Witness for the amended C5: the worker completion fired on a denied task
writes `completed`. -/
theorem taskOp_transitions_amended_witness :
    opTargetStatus (TaskOp.finishWork 1 true) = some "completed" :=
  taskOp_transitions_amended (TaskOp.finishWork 1 true) [(1, "denied")] 1
    "denied" "completed" (by decide) (by decide) (by decide)

/-- Python `str.title()` on the character list: an alphabetic character is
upper-cased after a non-alphabetic character (or at the start) and
lower-cased otherwise; the flag carries whether the previous character was
alphabetic. -/
def pyTitleGo : Bool → List Char → List Char
  | _, [] => []
  | prevAlpha, c :: t =>
    (if c.isAlpha then (if prevAlpha then c.toLower else c.toUpper) else c) ::
      pyTitleGo c.isAlpha t

/-- Python `s.title()`. -/
def pyTitle (s : String) : String := String.mk (pyTitleGo false s.data)

/-- Code-point lexicographic comparison of character lists (Python string
comparison). -/
def strLeB : List Char → List Char → Bool
  | [], _ => true
  | _ :: _, [] => false
  | a :: as, b :: bs =>
    if a.toNat < b.toNat then true
    else if b.toNat < a.toNat then false
    else strLeB as bs

/-- Python `a <= b` on strings. -/
def pyStrLe (a b : String) : Bool := strLeB a.data b.data

/-- Insert into a sorted list (ascending under `le`). -/
def insertSorted (x : String) : List String → List String
  | [] => [x]
  | y :: ys => if pyStrLe x y then x :: y :: ys else y :: insertSorted x ys

/-- Python `sorted(l)` for strings: insertion sort under the code-point
lexicographic order. -/
def pySorted : List String → List String
  | [] => []
  | x :: xs => insertSorted x (pySorted xs)

/-- Python `sorted(l, reverse=True)`; for strings this equals the reverse of
the ascending sort (duplicate keys are equal strings, so stability is not
observable). -/
def pySortedRev (l : List String) : List String := (pySorted l).reverse

/-- The index entry title: `file.replace('.md', '').replace('_', ' ')`. -/
def entryTitle (f : String) : String := pyReplace (pyReplace f ".md" "") "_" " "

/-- One index entry line: `- [{title}]({category}/{file})`. -/
def entryLineFor (cat f : String) : String :=
  "- [" ++ entryTitle f ++ "](" ++ cat ++ "/" ++ f ++ ")\n"

/-- `KnowledgeBaseMaintainerAgent.create_index` from
`kb_agent_system_claude.py` lines 444-478, as a function of the directory
listings (`listing c` is `os.listdir` of category folder `c`; the `INDEX.md`
file itself lives at the store root, not in any category folder, so no
listing contains it) and of the `Last updated` timestamp.

One loop iteration of `create_index`: append the section header, then
either the `*No documents yet*` marker or one entry line per sorted file,
then a blank line; count the files into the running total exactly when the
folder is non-empty. -/
def indexStep (listing : String → List String) (acc : String × Nat)
    (cd : String × String) : String × Nat :=
  let files := (listing cd.1).filter (fun f => pyEndsWith f ".md")
  let acc1 := acc.1 ++ ("## " ++ pyTitle cd.1 ++ "\n") ++ ("*" ++ cd.2 ++ "*\n\n")
  let acc2 :=
    if files.isEmpty then acc1 ++ "*No documents yet*\n"
    else (pySortedRev files).foldl (fun a f => a ++ entryLineFor cd.1 f) acc1
  (acc2 ++ "\n", acc.2 + (if files.isEmpty then 0 else files.length))

/-- The full output string of `create_index` (the content written to
`INDEX.md`). -/
def createIndexContent (listing : String → List String) (now : String) : String :=
  let init := "# Knowledge Base Index\n\n" ++ ("*Last updated: " ++ now ++ "*\n\n")
  let acc := categoriesTable.foldl (indexStep listing) (init, 0)
  acc.1 ++ ("\n---\n**Total Documents: " ++ toString acc.2 ++ "**\n")

/-- Concatenation of a list of strings. -/
def strJoin : List String → String
  | [] => ""
  | s :: rest => s ++ strJoin rest

/-- One per-category section as the specification words it, listing the
`.md` files in descending filename order. -/
def sectionForDesc (listing : String → List String) (cd : String × String) : String :=
  "## " ++ pyTitle cd.1 ++ "\n" ++ ("*" ++ cd.2 ++ "*\n\n") ++
    (if ((listing cd.1).filter (fun f => pyEndsWith f ".md")).isEmpty then
      "*No documents yet*\n"
    else
      strJoin ((pySortedRev ((listing cd.1).filter (fun f => pyEndsWith f ".md"))).map
        (entryLineFor cd.1))) ++ "\n"

/-- One per-category section exactly as claim C8 states it: the `.md` files
sorted by filename (ascending). -/
def sectionForAsc (listing : String → List String) (cd : String × String) : String :=
  "## " ++ pyTitle cd.1 ++ "\n" ++ ("*" ++ cd.2 ++ "*\n\n") ++
    (if ((listing cd.1).filter (fun f => pyEndsWith f ".md")).isEmpty then
      "*No documents yet*\n"
    else
      strJoin ((pySorted ((listing cd.1).filter (fun f => pyEndsWith f ".md"))).map
        (entryLineFor cd.1))) ++ "\n"

/-- Total number of `.md` files across all category folders. -/
def totalDocs (listing : String → List String) : Nat :=
  (categoriesTable.map
    (fun cd => ((listing cd.1).filter (fun f => pyEndsWith f ".md")).length)).sum

/-- The constant part of the index before the timestamp. -/
def indexPre : String := "# Knowledge Base Index\n\n*Last updated: "

/-- The part of the index after the timestamp: depends only on the store
listings. -/
def indexPost (listing : String → List String) : String :=
  "*\n\n" ++ strJoin (categoriesTable.map (sectionForDesc listing)) ++
    ("\n---\n**Total Documents: " ++ toString (totalDocs listing) ++ "**\n")

/-- The index as the amended claim C8 words it: intro, per-category sections
with `.md` files in descending filename order, and a footer counting all
listed documents. -/
def claimIndexDesc (listing : String → List String) (now : String) : String :=
  "# Knowledge Base Index\n\n" ++ ("*Last updated: " ++ now ++ "*\n\n") ++
    strJoin (categoriesTable.map (sectionForDesc listing)) ++
    ("\n---\n**Total Documents: " ++ toString (totalDocs listing) ++ "**\n")

/-- The index exactly as claim C8 states it: per-category sections with the
`.md` files sorted by filename in ascending order. -/
def claimIndexAsc (listing : String → List String) (now : String) : String :=
  "# Knowledge Base Index\n\n" ++ ("*Last updated: " ++ now ++ "*\n\n") ++
    strJoin (categoriesTable.map (sectionForAsc listing)) ++
    ("\n---\n**Total Documents: " ++ toString (totalDocs listing) ++ "**\n")

theorem foldl_append_strJoin (g : String → String) :
    ∀ (l : List String) (a : String),
      l.foldl (fun x f => x ++ g f) a = a ++ strJoin (l.map g) := by
  intro l
  induction l with
  | nil => intro a; simp [strJoin]
  | cons f rest ih =>
    intro a
    rw [List.foldl_cons, ih, List.map_cons]
    rw [show strJoin (g f :: rest.map g) = g f ++ strJoin (rest.map g) from rfl]
    rw [String.append_assoc]

theorem indexStep_eq (listing : String → List String) (acc : String × Nat)
    (cd : String × String) :
    indexStep listing acc cd =
      (acc.1 ++ sectionForDesc listing cd,
        acc.2 + ((listing cd.1).filter (fun f => pyEndsWith f ".md")).length) := by
  simp only [indexStep, sectionForDesc]
  by_cases hemp : ((listing cd.1).filter (fun f => pyEndsWith f ".md")).isEmpty = true
  · rw [if_pos hemp, if_pos hemp, if_pos hemp]
    have hlen : ((listing cd.1).filter (fun f => pyEndsWith f ".md")).length = 0 :=
      List.isEmpty_iff_length_eq_zero.mp hemp
    rw [Prod.mk.injEq]
    constructor
    · simp [String.append_assoc]
    · omega
  · rw [if_neg hemp, if_neg hemp, if_neg hemp, foldl_append_strJoin]
    rw [Prod.mk.injEq]
    constructor
    · simp [String.append_assoc]
    · rfl

theorem createIndex_foldl_spec (listing : String → List String) :
    ∀ (cats : List (String × String)) (a : String) (n : Nat),
      cats.foldl (indexStep listing) (a, n) =
      (a ++ strJoin (cats.map (sectionForDesc listing)),
        n + (cats.map
          (fun cd => ((listing cd.1).filter (fun f => pyEndsWith f ".md")).length)).sum) := by
  intro cats
  induction cats with
  | nil =>
    intro a n
    simp [strJoin]
  | cons cd rest ih =>
    intro a n
    rw [List.foldl_cons, indexStep_eq, ih]
    rw [show strJoin (List.map (sectionForDesc listing) (cd :: rest)) =
          sectionForDesc listing cd ++ strJoin (rest.map (sectionForDesc listing)) from rfl]
    rw [List.map_cons, List.sum_cons, Prod.mk.injEq]
    constructor
    · simp [String.append_assoc]
    · omega

theorem createIndexContent_decomp (listing : String → List String) (now : String) :
    createIndexContent listing now = indexPre ++ now ++ indexPost listing := by
  simp only [createIndexContent]
  rw [createIndex_foldl_spec listing categoriesTable _ 0]
  unfold indexPre indexPost totalDocs
  simp [String.append_assoc]
  rw [← String.append_assoc]
  congr 1

/-- C7: index regeneration is idempotent modulo the timestamp: for any fixed
store listings, two runs of `create_index` produce the same bytes
`indexPre ++ timestamp ++ indexPost listing` differing only in the timestamp
embedded in the `*Last updated: ...*` line. -/
theorem createIndex_idempotent_spec (listing : String → List String) (t1 t2 : String) :
    createIndexContent listing t1 = indexPre ++ t1 ++ indexPost listing ∧
    createIndexContent listing t2 = indexPre ++ t2 ++ indexPost listing ∧
    indexPre = "# Knowledge Base Index\n\n*Last updated: " :=
  ⟨createIndexContent_decomp listing t1, createIndexContent_decomp listing t2, rfl⟩

/-- A concrete store for the C8 counterexample: two documents in the
`midnight` folder, all other folders empty. -/
def listingCE : String → List String :=
  fun c => if c = "midnight" then ["a.md", "b.md"] else []

/-- C8 counterexample: `create_index` emits `sorted(files, reverse=True)`,
so the claimed ascending-by-filename index differs from the produced one as
soon as a folder holds two files. -/
theorem createIndex_sort_counterexample :
    createIndexContent listingCE "T" ≠ claimIndexAsc listingCE "T" := by decide

/-- C8 (amended): the index lists, in each per-category section, exactly the
`.md` files of that category folder (the index file itself lives outside
every category folder) sorted by filename in descending order, and ends with
a footer whose total document count is the sum of the per-section counts. -/
theorem createIndex_amended_spec (listing : String → List String) (now : String) :
    createIndexContent listing now = claimIndexDesc listing now := by
  rw [createIndexContent_decomp]
  unfold claimIndexDesc indexPre indexPost
  simp [String.append_assoc]
  rw [← String.append_assoc "# Knowledge Base Index\n\n" "*Last updated: "]
  rfl

/-- `KnowledgeBase.search(query, category)` from `kb_agent_system_claude.py`
lines 164-178: walk the scope (`base_path/category` or the whole store),
keep the `.md` files whose full text contains the query case-insensitively,
in walk (store) order. -/
def kbSearch (store : Store) (query : String) (category : Option String)
    (basePath : String) : List String :=
  (store.filter (fun pc =>
      pyStartsWith pc.1
          (match category with
            | some c => basePath ++ "/" ++ c
            | none => basePath) &&
        pyEndsWith pc.1 ".md" &&
        pyContains (pyLower pc.2) (pyLower query))).map (fun pc => pc.1)

/-- C9: search is case-insensitive — queries with the same lower-casing give
identical result lists — and the results are exactly the `.md` paths in
scope whose content contains the query as a case-insensitive substring. -/
theorem kbSearch_caseInsensitive_spec (store : Store) (q1 q2 : String)
    (category : Option String) (basePath : String) (h : pyLower q1 = pyLower q2) :
    kbSearch store q1 category basePath = kbSearch store q2 category basePath ∧
    (∀ p, p ∈ kbSearch store q1 category basePath ↔
      ∃ c, (p, c) ∈ store ∧
        pyStartsWith p
            (match category with
              | some cc => basePath ++ "/" ++ cc
              | none => basePath) = true ∧
        pyEndsWith p ".md" = true ∧
        pyContains (pyLower c) (pyLower q1) = true) := by
  constructor
  · unfold kbSearch
    rw [h]
  · intro p
    constructor
    · intro hm
      rcases List.mem_map.mp hm with ⟨pc, hpc, hpceq⟩
      rcases List.mem_filter.mp hpc with ⟨hmem, hpred⟩
      rw [Bool.and_eq_true, Bool.and_eq_true] at hpred
      refine ⟨pc.2, ?_, ?_, ?_, ?_⟩
      · rw [← hpceq]
        exact hmem
      · rw [← hpceq]
        exact hpred.1.1
      · rw [← hpceq]
        exact hpred.1.2
      · exact hpred.2
    · intro hex
      rcases hex with ⟨c, hmem, h1, h2, h3⟩
      exact List.mem_map.mpr ⟨(p, c),
        List.mem_filter.mpr ⟨hmem, by rw [Bool.and_eq_true, Bool.and_eq_true]; exact ⟨⟨h1, h2⟩, h3⟩⟩,
        rfl⟩

/-- Witness for C9: `search("Privacy")` and `search("privacy")` agree on a
concrete store. -/
theorem kbSearch_caseInsensitive_spec_witness :
    kbSearch [("knowledge_base/midnight/a.md", "A note on Data Privacy.")]
        "Privacy" none "knowledge_base" =
      kbSearch [("knowledge_base/midnight/a.md", "A note on Data Privacy.")]
        "privacy" none "knowledge_base" :=
  (kbSearch_caseInsensitive_spec
    [("knowledge_base/midnight/a.md", "A note on Data Privacy.")]
    "Privacy" "privacy" none "knowledge_base" (by decide)).1

/-- C10: when a non-empty metadata dictionary is supplied, `add_document`
updates the caller's own dictionary in place (`doc_metadata = metadata or {}`
aliases it), so after the call it carries the `created`, `category` and
`title` keys with the values the store header was written with. -/
theorem addDocument_mutatesMetadata_spec (basePath : String) (store : Store)
    (category title content : String) (metadata : List (String × String))
    (ts created : String) (hcat : category ∈ validCategories) (hne : metadata ≠ []) :
    listLookup (addDocument basePath store category title content metadata ts created).callerMetadata
        "created" = some created ∧
    listLookup (addDocument basePath store category title content metadata ts created).callerMetadata
        "category" = some category ∧
    listLookup (addDocument basePath store category title content metadata ts created).callerMetadata
        "title" = some title := by
  have hemp : metadata.isEmpty = false := by
    cases metadata with
    | nil => exact absurd rfl hne
    | cons p t => rfl
  have e : (addDocument basePath store category title content metadata ts created).callerMetadata =
      pySetKey (pySetKey (pySetKey metadata "created" created) "category" category)
        "title" title := by
    unfold addDocument
    rw [if_pos hcat]
    show (if metadata.isEmpty then metadata else
      pyUpdate metadata [("created", created), ("category", category), ("title", title)]) = _
    rw [hemp]
    rfl
  rw [e]
  refine ⟨?_, ?_, ?_⟩
  · rw [pySetKey_lookup_other _ _ _ _ (by decide), pySetKey_lookup_other _ _ _ _ (by decide)]
    exact pySetKey_lookup_self metadata "created" created
  · rw [pySetKey_lookup_other _ _ _ _ (by decide)]
    exact pySetKey_lookup_self _ "category" category
  · exact pySetKey_lookup_self _ "title" title

/-- Witness for C10 at a concrete call. -/
theorem addDocument_mutatesMetadata_spec_witness :
    listLookup (addDocument "knowledge_base" [] "midnight" "T" "B" [("agent", "Tester")]
        "20250101_000000" "2025-01-01T00:00:00").callerMetadata "created" =
      some "2025-01-01T00:00:00" ∧
    listLookup (addDocument "knowledge_base" [] "midnight" "T" "B" [("agent", "Tester")]
        "20250101_000000" "2025-01-01T00:00:00").callerMetadata "category" = some "midnight" ∧
    listLookup (addDocument "knowledge_base" [] "midnight" "T" "B" [("agent", "Tester")]
        "20250101_000000" "2025-01-01T00:00:00").callerMetadata "title" = some "T" :=
  addDocument_mutatesMetadata_spec "knowledge_base" [] "midnight" "T" "B"
    [("agent", "Tester")] "20250101_000000" "2025-01-01T00:00:00" (by decide) (by decide)

/-- `determine_category(topic, context)` from `research_worker.py` lines
24-44: first-match keyword chains over the lower-cased
`topic + " " + context`. -/
def determineCategory (topic context : String) : String :=
  if ["plutus", "aiken", "marlowe", "smart contract", "smartcontract", "contract"].any
      (fun w => pyContains (pyLower topic ++ " " ++ pyLower context) w) then "smart_contracts"
  else if ["midnight", "zk", "zero-knowledge", "zero knowledge", "zkproof"].any
      (fun w => pyContains (pyLower topic ++ " " ++ pyLower context) w) then "midnight"
  else if ["cardano", "ada", "stake pool", "node"].any
      (fun w => pyContains (pyLower topic ++ " " ++ pyLower context) w) then "cardano"
  else if ["healthcare", "health", "medical"].any
      (fun w => pyContains (pyLower topic ++ " " ++ pyLower context) w) then "healthcare"
  else if ["competitor", "ethereum", "solana", "polkadot"].any
      (fun w => pyContains (pyLower topic ++ " " ++ pyLower context) w) then "competitors"
  else if ["architecture", "design", "system"].any
      (fun w => pyContains (pyLower topic ++ " " ++ pyLower context) w) then "architecture"
  else "research"

/-- `DocumentationWriterAgent._call_claude_with_retry` as a function of the
successive attempt outcomes: the first success is returned; a retryable
failure moves on to the next attempt; the failure of the final attempt is
re-raised (a non-retryable failure is a shorter attempt list ending in that
error). -/
def callWithRetry : List (Except String String) → Except String String
  | [] => Except.error "no attempts"
  | [a] => a
  | a :: rest =>
    match a with
    | Except.ok t => Except.ok t
    | Except.error _ => callWithRetry rest

/-- The model identifier `MODEL_NAME` of `kb_agent_system_claude.py`. -/
def modelName : String := "claude-3-5-haiku-20241022"

/-- The documentation dict produced by `synthesize_documentation` /
`_create_error_fallback` (`dtype` models the `type` key; the `sources` list
is carried as such and serialized as one string on publication). -/
structure Doc where
  title : String
  dtype : String
  content : String
  category : String
  writtenBy : String
  sources : List String

/-- Python `s.strip()`. -/
def pyStrip (s : String) : String :=
  String.mk (((s.data.dropWhile Char.isWhitespace).reverse.dropWhile Char.isWhitespace).reverse)

/-- Title extraction of `synthesize_documentation`: the first line starting
with `# `, with every `# ` removed and stripped; default `Documentation`. -/
def extractTitle (documentation : String) : String :=
  match (documentation.splitOn "\n").find? (fun l => pyStartsWith l "# ") with
  | some l => pyStrip (pyReplace l "# " "")
  | none => "Documentation"

/-- The fallback content built by `_create_error_fallback`
(`kb_agent_system_claude.py` lines 382-414): an error banner, then each
research file re-read from the store (or a could-not-read note), then a
closing hint. -/
def errorFallbackContent (researchFiles : List String) (errorMsg ts : String)
    (store : Store) : String :=
  (researchFiles.foldl
    (fun acc fp =>
      match listLookup store fp with
      | some c => acc ++ ("\n---\n\n### Source: " ++ fp ++ "\n\n" ++ c ++ "\n\n")
      | none => acc ++ ("\n- Could not read " ++ fp ++ ": read error\n"))
    ("# Documentation Generation Failed\n\n**Error:** " ++ errorMsg ++
      "\n**Timestamp:** " ++ ts ++
      "\n\n## Research Sources\n\nThe following research was collected but could not be synthesized due to an error:\n\n")) ++
    "\n---\n\n*Please check your API configuration and try again.*\n"

/-- `_create_error_fallback`: the error documentation dict (type marker
`error`, fixed `midnight` category, fallback author, no sources key). -/
def errorFallback (researchFiles : List String) (errorMsg ts : String)
    (store : Store) : Doc :=
  { title := "Documentation (Error)", dtype := "error",
    content := errorFallbackContent researchFiles errorMsg ts store,
    category := "midnight", writtenBy := "Fallback", sources := [] }

/-- `synthesize_documentation(research_files, doc_type="guide", ...)`
(`kb_agent_system_claude.py` lines 316-380): read the research files back
from the store, fail over to the error fallback when nothing is readable or
when the retried generation call raises; otherwise wrap the generated text
with its extracted title. -/
def synthesizeDocumentation (researchFiles : List String)
    (synthAttempts : List (Except String String)) (ts : String) (store : Store) : Doc :=
  let researchContent := researchFiles.filterMap (fun fp =>
    (listLookup store fp).map (fun c => "## Source: " ++ fp ++ "\n\n" ++ c ++ "\n\n"))
  if researchContent.isEmpty then
    errorFallback researchFiles "No research content available to synthesize" ts store
  else
    match callWithRetry synthAttempts with
    | Except.ok documentation =>
      { title := extractTitle documentation, dtype := "guide", content := documentation,
        category := "midnight", writtenBy := modelName, sources := researchFiles }
    | Except.error e => errorFallback researchFiles e ts store

/-- `publish_documentation(doc)` (lines 416-434). -/
def publishDocumentation (d : Doc) (store : Store) (basePath ts created : String) :
    AddDocResult :=
  addDocument basePath store d.category d.title d.content
    [("agent", "Documentation Writer"), ("type", d.dtype),
     ("written_by", d.writtenBy), ("sources", strJoin d.sources), ("created_at", ts)]
    ts created

/-- The findings summary of `research_topic` (lines 188-237): the generated
text, or the labeled fallback line on an API error. -/
def researchSummary (topic : String) (outcome : Except String String) : String :=
  match outcome with
  | Except.ok txt => txt
  | Except.error e => "Research on " ++ topic ++ " (API Error: " ++ e ++ ")"

/-- `save_research(findings)` (lines 239-255). -/
def saveResearch (topic : String) (outcome : Except String String) (store : Store)
    (basePath ts created : String) : AddDocResult :=
  addDocument basePath store "research" topic (researchSummary topic outcome)
    [("agent", "Research Curator"),
     ("researched_by",
       match outcome with
       | Except.ok _ => modelName
       | Except.error _ => "Fallback"),
     ("timestamp", created)]
    ts created

/-- The `os.listdir` view of a category folder derived from the flat store:
the names directly under `basePath/cat/`. -/
def listingOf (basePath : String) (store : Store) : String → List String :=
  fun cat =>
    store.filterMap (fun pc =>
      if pyStartsWith pc.1 (basePath ++ "/" ++ cat ++ "/") then
        (if ((pc.1.drop (basePath ++ "/" ++ cat ++ "/").length).data.any
              (fun c => c = '/')) then none
         else some (pc.1.drop (basePath ++ "/" ++ cat ++ "/").length))
      else none)

/-- `create_index` writing `INDEX.md` at the store root. -/
def writeIndex (store : Store) (basePath tsIdx : String) : Store :=
  pySetKey store (basePath ++ "/INDEX.md")
    (createIndexContent (listingOf basePath store) tsIdx)

/-- `AgentOrchestrator.research_and_document(topic, context, ...)` (lines
564-596): save the research findings, synthesize and publish documentation,
regenerate the index.  Returns the store after each persisted step together
with the result dict or the propagated exception.  `ts1`/`ts2` are the
second-resolution timestamps of the two `add_document` calls, `tsIdx` the
index timestamp and `iso` the ISO creation timestamp. -/
def researchAndDocument (topic _context : String)
    (researchOutcome : Except String String)
    (synthAttempts : List (Except String String)) (basePath : String) (store : Store)
    (ts1 ts2 tsIdx iso : String) : Store × Except String (String × String × Doc) :=
  let r1 := saveResearch topic researchOutcome store basePath ts1 iso
  match r1.result with
  | Except.error e => (r1.store, Except.error e)
  | Except.ok researchFile =>
    let d := synthesizeDocumentation [researchFile] synthAttempts ts2 r1.store
    let r2 := publishDocumentation d r1.store basePath ts2 iso
    match r2.result with
    | Except.error e => (r2.store, Except.error e)
    | Except.ok docFile =>
      (writeIndex r2.store basePath tsIdx, Except.ok (researchFile, docFile, d))

/-- `Path(p).name`: the characters after the last slash. -/
def baseName (p : String) : String :=
  String.mk ((p.data.reverse.takeWhile (fun c => c ≠ '/')).reverse)

/-- `shutil.move(src, dst)` guarded by `Path(src).exists()`
(`move_files_to_category`, `research_worker.py` lines 46-69). -/
def moveFile (store : Store) (src dst : String) : Store :=
  match listLookup store src with
  | some c => pySetKey (storeRemove store src) dst c
  | none => store

/-- Outcome of `process_task`: the store and task table afterwards, and on
success the produced documentation dict with the final (moved) locations of
the research and documentation files. -/
structure ProcessOut where
  store : Store
  tasks : TaskSys
  doc : Option Doc
  researchLoc : Option String
  docLoc : Option String

/-- `process_task(task)` (`research_worker.py` lines 71-137): classify the
topic, mark the task `processing`, run the pipeline, move the two produced
files into the classified category folder, and mark the task `completed`
(or `error` and leave the files unmoved when the pipeline raised). -/
def processTask (taskId : Nat) (topic context : String)
    (researchOutcome : Except String String)
    (synthAttempts : List (Except String String)) (basePath : String) (store : Store)
    (ts1 ts2 tsIdx iso : String) (sys : TaskSys) : ProcessOut :=
  let category := determineCategory topic context
  let sys1 := setTaskStatus sys taskId "processing"
  match researchAndDocument topic context researchOutcome synthAttempts basePath store
      ts1 ts2 tsIdx iso with
  | (st, Except.error _) =>
    { store := st, tasks := setTaskStatus sys1 taskId "error",
      doc := none, researchLoc := none, docLoc := none }
  | (st, Except.ok (researchFile, docFile, d)) =>
    let researchDst := basePath ++ "/" ++ category ++ "/" ++ baseName researchFile
    let docDst := basePath ++ "/" ++ category ++ "/" ++ baseName docFile
    let st2 := moveFile st researchFile researchDst
    let st3 := moveFile st2 docFile docDst
    { store := st3, tasks := setTaskStatus sys1 taskId "completed",
      doc := some d, researchLoc := some researchDst, docLoc := some docDst }

theorem strData_inj {a b : String} (h : a.data = b.data) : a = b := by
  cases a
  cases b
  exact congrArg String.mk h

theorem callWithRetry_all_fail (l : List (Except String String)) (hne : l ≠ [])
    (h : ∀ a ∈ l, ∃ e, a = Except.error e) :
    ∃ e, callWithRetry l = Except.error e := by
  induction l with
  | nil => exact absurd rfl hne
  | cons a t ih =>
    cases t with
    | nil =>
      obtain ⟨e, he⟩ := h a (List.mem_cons_self a [])
      exact ⟨e, by rw [show callWithRetry [a] = a from rfl, he]⟩
    | cons b t2 =>
      obtain ⟨e, he⟩ := h a (List.mem_cons_self a _)
      subst he
      rw [show callWithRetry (Except.error e :: b :: t2) = callWithRetry (b :: t2) from rfl]
      exact ih (by simp) (fun x hx => h x (List.mem_cons_of_mem _ hx))

theorem listContains_of_prefix (n h : List Char) (hp : n.isPrefixOf h = true) :
    listContains n h = true := by
  cases h with
  | nil =>
    cases n with
    | nil => rfl
    | cons c t => simp [List.isPrefixOf] at hp
  | cons c t =>
    unfold listContains
    rw [hp]
    rfl

theorem isPrefixOf_append_self (n : List Char) : ∀ g, n.isPrefixOf (n ++ g) = true := by
  induction n with
  | nil => intro g; exact List.isPrefixOf_nil_left
  | cons c t ih =>
    intro g
    rw [List.cons_append, List.isPrefixOf_cons₂, ih g]
    simp

theorem listContains_middle (n : List Char) : ∀ A B, listContains n (A ++ (n ++ B)) = true := by
  intro A
  induction A with
  | nil =>
    intro B
    exact listContains_of_prefix n (n ++ B) (isPrefixOf_append_self n B)
  | cons c t ih =>
    intro B
    rw [List.cons_append]
    unfold listContains
    rw [ih B]
    simp

theorem pyContains_middle (hay needle : String) (A B : List Char)
    (h : hay.data = A ++ needle.data ++ B) : pyContains hay needle = true := by
  unfold pyContains
  rw [h, List.append_assoc]
  exact listContains_middle needle.data A B

theorem takeWhile_append_stop (p : Char → Bool) :
    ∀ (xs : List Char) (y : Char) (ys : List Char), (∀ x ∈ xs, p x = true) → p y = false →
      (xs ++ y :: ys).takeWhile p = xs := by
  intro xs
  induction xs with
  | nil =>
    intro y ys _ hy
    rw [List.nil_append, List.takeWhile_cons, hy]
    rfl
  | cons x t ih =>
    intro y ys hall hy
    rw [List.cons_append, List.takeWhile_cons, hall x (List.mem_cons_self x t)]
    rw [ih y ys (fun z hz => hall z (List.mem_cons_of_mem x hz)) hy]
    rfl

theorem baseName_eq (dir fn : String) (h : '/' ∉ fn.data) :
    baseName (dir ++ "/" ++ fn) = fn := by
  unfold baseName
  have hd : (dir ++ "/" ++ fn).data = (dir.data ++ ['/']) ++ fn.data := by
    rw [strAppend_data, strAppend_data]
  rw [hd, List.reverse_append, List.reverse_append]
  have hrev : fn.data.reverse ++ (['/'].reverse ++ dir.data.reverse) =
      fn.data.reverse ++ '/' :: dir.data.reverse := rfl
  rw [hrev, takeWhile_append_stop _ fn.data.reverse '/' dir.data.reverse
    (fun x hx => by
      have hxm : x ∈ fn.data := List.mem_reverse.mp hx
      have hxne : x ≠ '/' := fun hc => h (hc ▸ hxm)
      simpa using hxne)
    (by simp)]
  rw [List.reverse_reverse]

theorem splitSlash_inj :
    ∀ (xs ys xs2 ys2 : List Char), '/' ∉ xs → '/' ∉ xs2 →
      xs ++ '/' :: ys = xs2 ++ '/' :: ys2 → xs = xs2 ∧ ys = ys2 := by
  intro xs
  induction xs with
  | nil =>
    intro ys xs2 ys2 _ h2 he
    cases xs2 with
    | nil =>
      rw [List.nil_append, List.nil_append] at he
      exact ⟨rfl, (List.cons.injEq _ _ _ _ ▸ he).2⟩
    | cons a t =>
      rw [List.nil_append, List.cons_append] at he
      have ha : '/' = a := (List.cons.injEq _ _ _ _ ▸ he).1
      exact absurd (ha ▸ List.mem_cons_self a t) h2
  | cons x t ih =>
    intro ys xs2 ys2 h1 h2 he
    cases xs2 with
    | nil =>
      rw [List.cons_append, List.nil_append] at he
      have hx : x = '/' := (List.cons.injEq _ _ _ _ ▸ he).1
      exact absurd (hx ▸ List.mem_cons_self x t) h1
    | cons a t2 =>
      rw [List.cons_append, List.cons_append] at he
      have hhead : x = a := (List.cons.injEq _ _ _ _ ▸ he).1
      have htail := (List.cons.injEq _ _ _ _ ▸ he).2
      have hrec := ih ys t2 ys2 (fun hm => h1 (List.mem_cons_of_mem x hm))
        (fun hm => h2 (List.mem_cons_of_mem a hm)) htail
      exact ⟨by rw [hhead, hrec.1], hrec.2⟩

theorem catPath_data (b c f : String) :
    (b ++ "/" ++ c ++ "/" ++ f).data = b.data ++ '/' :: (c.data ++ '/' :: f.data) := by
  rw [strAppend_data, strAppend_data, strAppend_data, strAppend_data]
  have h1 : ("/" : String).data = ['/'] := rfl
  rw [h1]
  simp

theorem catPath_inj (b c1 f1 c2 f2 : String) (h1 : '/' ∉ c1.data) (h2 : '/' ∉ c2.data)
    (he : b ++ "/" ++ c1 ++ "/" ++ f1 = b ++ "/" ++ c2 ++ "/" ++ f2) :
    c1 = c2 ∧ f1 = f2 := by
  have hd := congrArg String.data he
  rw [catPath_data, catPath_data] at hd
  have hd2 := List.append_cancel_left hd
  have hd3 := (List.cons.injEq _ _ _ _ ▸ hd2).2
  have hres := splitSlash_inj c1.data f1.data c2.data f2.data h1 h2 hd3
  exact ⟨strData_inj hres.1, strData_inj hres.2⟩

theorem catPath_ne_index (b c f : String) :
    b ++ "/" ++ c ++ "/" ++ f ≠ b ++ "/INDEX.md" := by
  intro he
  have hd := congrArg String.data he
  rw [catPath_data, strAppend_data] at hd
  have hIdx : ("/INDEX.md" : String).data = '/' :: ("INDEX.md" : String).data := rfl
  rw [hIdx] at hd
  have hd2 := List.append_cancel_left hd
  have hd3 := (List.cons.injEq _ _ _ _ ▸ hd2).2
  have hmem : '/' ∈ c.data ++ '/' :: f.data := List.mem_append.mpr (Or.inr (List.mem_cons_self _ _))
  rw [hd3] at hmem
  revert hmem
  decide

theorem storeRemove_lookup_other (store : Store) (src q : String) (h : q ≠ src) :
    listLookup (storeRemove store src) q = listLookup store q := by
  induction store with
  | nil => rfl
  | cons p t ih =>
    unfold storeRemove
    rw [List.filter_cons]
    by_cases hp : (p.1 != src) = true
    · rw [if_pos hp]
      by_cases hq : (p.1 == q) = true
      · rw [listLookup_cons_pos _ _ _ hq, listLookup_cons_pos _ _ _ hq]
      · have hqf : (p.1 == q) = false := eq_false_of_ne_true hq
        rw [listLookup_cons_neg _ _ _ hqf, listLookup_cons_neg _ _ _ hqf]
        exact ih
    · rw [if_neg hp]
      have hps : p.1 = src := by
        have := eq_false_of_ne_true hp
        simpa [bne] using this
      have hqf : (p.1 == q) = false := by
        rw [beq_eq_false_iff_ne]
        exact fun hc => absurd (hc ▸ hps) h
      rw [listLookup_cons_neg _ _ _ hqf]
      exact ih

theorem determineCategory_mem (t c : String) :
    determineCategory t c ∈ (["smart_contracts", "midnight", "cardano", "healthcare",
      "competitors", "architecture", "research"] : List String) := by
  unfold determineCategory
  split_ifs <;> simp

theorem determineCategory_no_slash (t c : String) :
    '/' ∉ (determineCategory t c).data := by
  have h := determineCategory_mem t c
  simp only [List.mem_cons, List.not_mem_nil, or_false] at h
  rcases h with h | h | h | h | h | h | h <;> rw [h] <;> decide

theorem pyReplaceFuel_no_mem (c : Char) :
    ∀ (fuel : Nat) (needle repl hay : List Char), c ∉ hay → c ∉ repl →
      c ∉ pyReplaceFuel fuel needle repl hay := by
  intro fuel
  induction fuel with
  | zero => intro needle repl hay hh _; exact hh
  | succ f ih =>
    intro needle repl hay hh hr
    cases hay with
    | nil => simp [pyReplaceFuel]
    | cons a t =>
      unfold pyReplaceFuel
      by_cases hp : needle.isPrefixOf (a :: t) = true
      · rw [if_pos hp]
        intro hm
        rcases List.mem_append.mp hm with hm | hm
        · exact hr hm
        · exact ih needle repl _ (fun hd => hh (List.drop_subset _ _ hd)) hr hm
      · rw [if_neg hp]
        intro hm
        rcases List.mem_cons.mp hm with hm | hm
        · exact hh (hm ▸ List.mem_cons_self a t)
        · exact ih needle repl t (fun ht => hh (List.mem_cons_of_mem a ht)) hr hm

theorem filename_no_slash (ts title : String) (h1 : '/' ∉ ts.data) (h2 : '/' ∉ title.data) :
    '/' ∉ (ts ++ "_" ++ pyReplace title " " "_" ++ ".md").data := by
  rw [strAppend_data, strAppend_data]
  intro hm
  rcases List.mem_append.mp hm with hm | hm
  · rcases List.mem_append.mp hm with hm | hm
    · rcases List.mem_append.mp hm with hm | hm
      · exact h1 hm
      · revert hm; decide
    · exact pyReplaceFuel_no_mem '/' title.data.length (" " : String).data
        ("_" : String).data title.data h2 (by decide) hm
  · revert hm; decide

set_option maxRecDepth 8192 in
/-- C6: for an approved task whose synthesis-stage generation call fails on
every retry attempt, `process_task` still completes: the task ends
`completed` (not `error`), the research document persists with its body
intact, and a documentation artifact with type marker `error` whose content
embeds the full research file is persisted. -/
theorem processTask_synthFail_spec (taskId : Nat) (topic context : String)
    (researchOutcome : Except String String)
    (synthAttempts : List (Except String String)) (basePath : String) (store : Store)
    (ts1 ts2 tsIdx iso : String) (sys : TaskSys)
    (hex : taskStatus sys taskId = some "approved")
    (hatt : synthAttempts ≠ [])
    (hfail : ∀ a ∈ synthAttempts, ∃ e2, a = Except.error e2)
    (htopicNl : '\n' ∉ topic.data)
    (htopicSl : '/' ∉ topic.data)
    (hts1 : '/' ∉ ts1.data) (hts2 : '/' ∉ ts2.data)
    (hfn : ts1 ++ "_" ++ pyReplace topic " " "_" ++ ".md" ≠
      ts2 ++ "_" ++ pyReplace "Documentation (Error)" " " "_" ++ ".md") :
    taskStatus (processTask taskId topic context researchOutcome synthAttempts basePath
        store ts1 ts2 tsIdx iso sys).tasks taskId = some "completed" ∧
    (∃ d, (processTask taskId topic context researchOutcome synthAttempts basePath
        store ts1 ts2 tsIdx iso sys).doc = some d ∧ d.dtype = "error") ∧
    (∃ rloc dloc rc dc,
      (processTask taskId topic context researchOutcome synthAttempts basePath
        store ts1 ts2 tsIdx iso sys).researchLoc = some rloc ∧
      (processTask taskId topic context researchOutcome synthAttempts basePath
        store ts1 ts2 tsIdx iso sys).docLoc = some dloc ∧
      listLookup (processTask taskId topic context researchOutcome synthAttempts basePath
        store ts1 ts2 tsIdx iso sys).store rloc = some rc ∧
      listLookup (processTask taskId topic context researchOutcome synthAttempts basePath
        store ts1 ts2 tsIdx iso sys).store dloc = some dc ∧
      stripHeaderAndTitle rc =
        some ("# " ++ topic, researchSummary topic researchOutcome) ∧
      pyContains dc rc = true) := by
  -- names for the artifacts of stage 1
  set md1 : List (String × String) :=
    [("agent", "Research Curator"),
     ("researched_by",
       match researchOutcome with
       | Except.ok _ => modelName
       | Except.error _ => "Fallback"),
     ("timestamp", iso)] with hmd1
  obtain ⟨e, hcall⟩ := callWithRetry_all_fail synthAttempts hatt hfail
  set T := researchSummary topic researchOutcome with hTdef
  set dm1 := pyUpdate md1 [("created", iso), ("category", "research"), ("title", topic)]
    with hdm1
  set fn1 := ts1 ++ "_" ++ pyReplace topic " " "_" ++ ".md" with hfn1
  set rp := basePath ++ "/" ++ "research" ++ "/" ++ fn1 with hrp
  set rc := docFileContent dm1 topic T with hrc
  set st1 := pySetKey store rp rc with hst1
  have h1r : (saveResearch topic researchOutcome store basePath ts1 iso).result =
      Except.ok rp := rfl
  have h1s : (saveResearch topic researchOutcome store basePath ts1 iso).store = st1 := rfl
  have hlook1 : listLookup st1 rp = some rc := pySetKey_lookup_self store rp rc
  -- stage 2 degrades to the error fallback
  have hfm : [rp].filterMap (fun fp => (listLookup st1 fp).map
      (fun c => "## Source: " ++ fp ++ "\n\n" ++ c ++ "\n\n")) =
      ["## Source: " ++ rp ++ "\n\n" ++ rc ++ "\n\n"] := by
    simp [hlook1]
  have hsyn : synthesizeDocumentation [rp] synthAttempts ts2 st1 =
      errorFallback [rp] e ts2 st1 := by
    unfold synthesizeDocumentation
    rw [hfm, hcall]
    rfl
  set dfb := errorFallback [rp] e ts2 st1 with hdfb
  set md2 : List (String × String) :=
    [("agent", "Documentation Writer"), ("type", "error"),
     ("written_by", "Fallback"), ("sources", strJoin []), ("created_at", ts2)] with hmd2
  set dm2 := pyUpdate md2
    [("created", iso), ("category", "midnight"), ("title", "Documentation (Error)")]
    with hdm2
  set fn2 := ts2 ++ "_" ++ pyReplace "Documentation (Error)" " " "_" ++ ".md" with hfn2
  set dp := basePath ++ "/" ++ "midnight" ++ "/" ++ fn2 with hdp
  set dcontent := errorFallbackContent [rp] e ts2 st1 with hdcontent
  set dc := docFileContent dm2 "Documentation (Error)" dcontent with hdc
  have h2r : (publishDocumentation dfb st1 basePath ts2 iso).result = Except.ok dp := rfl
  have h2s : (publishDocumentation dfb st1 basePath ts2 iso).store = pySetKey st1 dp dc := rfl
  set st2 := pySetKey st1 dp dc with hst2
  set ip := basePath ++ "/INDEX.md" with hip
  set idx := createIndexContent (listingOf basePath st2) tsIdx with hidx
  set st3 := pySetKey st2 ip idx with hst3
  have hrad : researchAndDocument topic context researchOutcome synthAttempts basePath store
      ts1 ts2 tsIdx iso = (st3, Except.ok (rp, dp, dfb)) := by
    simp only [researchAndDocument]
    split
    · next e1 heq =>
      rw [h1r] at heq
      simp at heq
    · next researchFile heq =>
      rw [h1r] at heq
      injection heq with hinj
      subst hinj
      rw [h1s, hsyn]
      split
      · next e1 heq2 =>
        rw [h2r] at heq2
        simp at heq2
      · next docFile heq2 =>
        rw [h2r] at heq2
        injection heq2 with hinj2
        subst hinj2
        rw [h2s]
        rfl
  -- path disjointness
  have hfn1s : ('/' : Char) ∉ fn1.data := filename_no_slash ts1 topic hts1 htopicSl
  have hfn2s : ('/' : Char) ∉ fn2.data :=
    filename_no_slash ts2 "Documentation (Error)" hts2 (by decide)
  have hcatsl := determineCategory_no_slash topic context
  have hrpdp : rp ≠ dp := fun he =>
    absurd (catPath_inj basePath "research" fn1 "midnight" fn2 (by decide) (by decide) he).1
      (by decide)
  have hrpip : rp ≠ ip := catPath_ne_index basePath "research" fn1
  have hdpip : dp ≠ ip := catPath_ne_index basePath "midnight" fn2
  set dstR := basePath ++ "/" ++ determineCategory topic context ++ "/" ++ fn1 with hdstR
  set dstD := basePath ++ "/" ++ determineCategory topic context ++ "/" ++ fn2 with hdstD
  have hdpdstR : dp ≠ dstR := fun he =>
    hfn (((catPath_inj basePath "midnight" fn2 (determineCategory topic context) fn1
      (by decide) hcatsl he).2).symm)
  have hdstRD : dstR ≠ dstD := fun he =>
    hfn ((catPath_inj basePath (determineCategory topic context) fn1
      (determineCategory topic context) fn2 hcatsl hcatsl he).2)
  have hlook3 : listLookup st3 rp = some rc := by
    rw [hst3, pySetKey_lookup_other st2 ip idx rp hrpip,
      hst2, pySetKey_lookup_other st1 dp dc rp hrpdp]
    exact hlook1
  set st4 := pySetKey (storeRemove st3 rp) dstR rc with hst4
  have hlook4 : listLookup st4 dp = some dc := by
    rw [hst4, pySetKey_lookup_other (storeRemove st3 rp) dstR rc dp hdpdstR,
      storeRemove_lookup_other st3 rp dp (Ne.symm hrpdp),
      hst3, pySetKey_lookup_other st2 ip idx dp hdpip, hst2]
    exact pySetKey_lookup_self st1 dp dc
  set st5 := pySetKey (storeRemove st4 dp) dstD dc with hst5
  have hfin1 : listLookup st5 dstR = some rc := by
    rw [hst5, pySetKey_lookup_other (storeRemove st4 dp) dstD dc dstR hdstRD,
      storeRemove_lookup_other st4 dp dstR (fun hc => hdpdstR hc.symm), hst4]
    exact pySetKey_lookup_self (storeRemove st3 rp) dstR rc
  have hfin2 : listLookup st5 dstD = some dc :=
    pySetKey_lookup_self (storeRemove st4 dp) dstD dc
  -- the whole process_task call, reduced
  have hout : processTask taskId topic context researchOutcome synthAttempts basePath
      store ts1 ts2 tsIdx iso sys =
      { store := st5,
        tasks := setTaskStatus (setTaskStatus sys taskId "processing") taskId "completed",
        doc := some dfb, researchLoc := some dstR, docLoc := some dstD } := by
    simp only [processTask]
    rw [hrad]
    split
    · next st msg heq =>
      simp at heq
    · next st rf df d heq =>
      injection heq with ha hb
      injection hb with hc
      injection hc with h1 h2
      injection h2 with h3 h4
      subst ha
      subst h1
      subst h3
      subst h4
      rw [show baseName rp = fn1 from by
        rw [hrp]; exact baseName_eq (basePath ++ "/" ++ "research") fn1 hfn1s]
      rw [show baseName dp = fn2 from by
        rw [hdp]; exact baseName_eq (basePath ++ "/" ++ "midnight") fn2 hfn2s]
      rw [show moveFile st3 rp dstR = st4 from by
        unfold moveFile; rw [hlook3, hst4]]
      rw [show moveFile st4 dp dstD = st5 from by
        unfold moveFile; rw [hlook4, hst5]]
  rw [hout]
  refine ⟨?_, ⟨dfb, rfl, rfl⟩, dstR, dstD, rc, dc, rfl, rfl, hfin1, hfin2, ?_, ?_⟩
  · exact taskStatus_set_self _ taskId "completed" "processing"
      (taskStatus_set_self sys taskId "processing" "approved" hex)
  · exact strip_docFileContent dm1 topic T htopicNl
  · -- the persisted documentation embeds the research file content
    have hfold : dcontent =
        (("# Documentation Generation Failed\n\n**Error:** " ++ e ++
            "\n**Timestamp:** " ++ ts2 ++
            "\n\n## Research Sources\n\nThe following research was collected but could not be synthesized due to an error:\n\n") ++
          ("\n---\n\n### Source: " ++ rp ++ "\n\n" ++ rc ++ "\n\n")) ++
        "\n---\n\n*Please check your API configuration and try again.*\n" := by
      rw [hdcontent]
      unfold errorFallbackContent
      simp only [List.foldl_cons, List.foldl_nil, hlook1]
    apply pyContains_middle dc rc
      (dashesLine ++ '\n' :: joinNl (jsonLines dm2) ++ '\n' :: dashesLine ++
        '\n' :: '\n' :: '#' :: ' ' :: ("Documentation (Error)" : String).data ++
        '\n' :: '\n' ::
        (("# Documentation Generation Failed\n\n**Error:** " ++ e ++
            "\n**Timestamp:** " ++ ts2 ++
            "\n\n## Research Sources\n\nThe following research was collected but could not be synthesized due to an error:\n\n" : String).data ++
          ("\n---\n\n### Source: " : String).data ++ rp.data ++ ("\n\n" : String).data))
      (("\n\n" : String).data ++
        ("\n---\n\n*Please check your API configuration and try again.*\n" : String).data)
    rw [hdc]
    show docFileData dm2 "Documentation (Error)" dcontent = _
    rw [hfold]
    unfold docFileData
    simp [strAppend_data, List.append_assoc]

/-- Witness for C6 at a concrete task whose three synthesis attempts all
fail. -/
theorem processTask_synthFail_spec_witness :
    taskStatus (processTask 1 "Midnight" "" (Except.ok "findings")
        [Except.error "boom", Except.error "boom", Except.error "boom"]
        "knowledge_base" [] "20250101_000000" "20250101_000001" "t" "2025"
        [(1, "approved")]).tasks 1 = some "completed" :=
  (processTask_synthFail_spec 1 "Midnight" "" (Except.ok "findings")
    [Except.error "boom", Except.error "boom", Except.error "boom"]
    "knowledge_base" [] "20250101_000000" "20250101_000001" "t" "2025"
    [(1, "approved")] (by decide) (List.cons_ne_nil _ _)
    (fun a ha => by
      simp only [List.mem_cons, List.not_mem_nil, or_false] at ha
      rcases ha with h | h | h <;> exact ⟨"boom", h⟩)
    (by decide) (by decide) (by decide) (by decide) (by decide)).1
